import Mathlib

/-!
Verification development for the playwright test-orchestration worker.

The definitions below are a shallow embedding of the orchestration core:
the configuration resolver (src/src/playwright-client.ts and
src/src/database.ts), the traditional test executor
(src/unnamed/part_000, class TraditionalTestExecutor), the agentic test
executor (src/src/agentic-test-executor.ts, class AgenticTestExecutor)
and the session-status write performed by the request handlers
(src/src/playwright-client.ts).

Modelling conventions:
  - The remote browser-automation capability is an oracle
    `Env : Nat -> Option String`; the n-th playwright call either
    succeeds (`none`) or throws with the given message (`some msg`).
    Database and logger writes never fail in the source model of
    interest, so they are not given failure oracles.
  - Real time is not modelled; `Date.now()`-derived screenshot names use
    the call counter as a stand-in for the timestamp.
  - Fallible code is embedded with `Except String`; a `try`/`catch` is a
    `match` on the inner `Except`.
-/

/-- An oracle for the browser-automation capability: result of the n-th
playwright call in a run (`none` = resolves, `some msg` = rejects). -/
abbrev Env := Nat → Option String

/-- JS falsiness for an optional string: `undefined` and the empty
string are falsy (`!x` in the source). -/
def strFalsy : Option String → Bool
  | none => true
  | some s => s == ""

/-- JS `x || d` for an optional number: `undefined` and `0` are falsy,
so both fall back to the default (agentic-test-executor.ts lines 22-23). -/
def jsOrNat : Option Nat → Nat → Nat
  | none, d => d
  | some 0, d => d
  | some (n + 1), _ => n + 1

/-- Substring test on character lists: JS `hay.includes(needle)` and the
SQL `instr(hay, needle) > 0` filter of database.ts line 205. -/
def listContains (needle : List Char) : List Char → Bool
  | [] => needle.isEmpty
  | c :: t => needle.isPrefixOf (c :: t) || listContains needle t

/-- Checks that `pattern` occurs as a substring of `url`. -/
def substrTest (pattern url : String) : Bool :=
  listContains pattern.toList url.toList

/-- JS `pattern.split(Char '*')` over character lists. -/
def splitStar : List Char → List (List Char)
  | [] => [[]]
  | c :: t =>
    let r := splitStar t
    if c == '*' then [] :: r
    else
      match r with
      | [] => [[c]]
      | h :: t2 => (c :: h) :: t2

/-- Drops everything up to and including the first occurrence of
`needle`; `none` when `needle` does not occur. -/
def dropAfterFirst (needle : List Char) : List Char → Option (List Char)
  | [] => if needle.isEmpty then some [] else none
  | c :: t =>
    if needle.isPrefixOf (c :: t) then some ((c :: t).drop needle.length)
    else dropAfterFirst needle t

/-- The literal segments must occur in `hay` in order, with arbitrary
gaps: the unanchored search semantics of the regular expression obtained
by replacing each wildcard with a dot-star. -/
def matchSegs : List (List Char) → List Char → Bool
  | [], _ => true
  | s :: rest, hay =>
    match dropAfterFirst s hay with
    | none => false
    | some t => matchSegs rest t

/-- Embedding of `new RegExp(pattern.replace(wildcards, dotstar)).test(url)`
from playwright-client.ts lines 164-166, for patterns whose non-wildcard
characters are regex-literal. -/
def globMatch (pattern url : String) : Bool :=
  matchSegs (splitStar pattern.toList) url.toList

/-- The filter predicate of `findBestMatchingConfig`
(playwright-client.ts lines 162-168): a wildcard pattern is expanded to
a regular expression, a plain pattern is a substring test. -/
def matchesPattern (url pattern : String) : Bool :=
  if pattern.toList.contains '*' then globMatch pattern url
  else substrTest pattern url

/-- The `SystemInstruction` row of types.ts (fields the resolver reads). -/
structure SystemInstruction where
  id : Nat
  url_pattern : String
  name : String
  instructions : String
  test_type : String
  is_active : Bool
deriving DecidableEq

/-- First element of maximal `url_pattern` length: the head of the
stable descending sort of playwright-client.ts line 171, and a
deterministic refinement of the SQL `ORDER BY LENGTH(url_pattern) DESC
LIMIT 1` of database.ts lines 206-207. -/
def pickLongest : List SystemInstruction → Option SystemInstruction
  | [] => none
  | c :: rest =>
    match pickLongest rest with
    | none => some c
    | some b => if b.url_pattern.length > c.url_pattern.length then some b else some c

/-- Embedding of `findBestMatchingConfig`, playwright-client.ts lines 161-173 (also
duplicated in index.ts): filter by `matchesPattern`, return the most
specific (longest-pattern) match or null. -/
def findBestMatchingConfig (url : String) (configs : List SystemInstruction) :
    Option SystemInstruction :=
  pickLongest (configs.filter (fun c => matchesPattern url c.url_pattern))

/-- The WHERE clause of `DatabaseService.getSystemInstructionByUrl`
(database.ts lines 200-207): active, optionally restricted to the given
test type, and the pattern a plain substring of the url. -/
def dbMatch (url : String) (testType : Option String) (c : SystemInstruction) : Bool :=
  c.is_active &&
    (match testType with
     | some t => c.test_type == t
     | none => true) &&
    substrTest c.url_pattern url

/-- Embedding of `DatabaseService.getSystemInstructionByUrl` (database.ts lines
199-214) over an explicit table of rows: filter by the WHERE clause and
take a row of maximal pattern length, or null. -/
def getSystemInstructionByUrl (url : String) (testType : Option String)
    (rows : List SystemInstruction) : Option SystemInstruction :=
  pickLongest (rows.filter (dbMatch url testType))

/-! The traditional executor (src/unnamed/part_000). -/

/-- Step action tags of types.ts line 54. The source tag `type` is the
constructor `typeText` here only because of Lean field-name clashes; all
other tags keep their source names. -/
inductive StepAction
  | navigate
  | click
  | typeText
  | select
  | wait
  | screenshot
  | custom
deriving DecidableEq

/-- The `TestStep` record of types.ts lines 53-60. -/
structure TestStep where
  action : StepAction
  selector : Option String := none
  value : Option String := none
  url : Option String := none
  timeout : Option Nat := none
  description : String
deriving DecidableEq

/-- Assertion tags of types.ts line 63; `existsTag` stands for the
source tag `exists` (a Lean keyword). -/
inductive AssertType
  | existsTag
  | visible
  | text
  | value
  | count
  | custom
deriving DecidableEq

/-- The `expected` field of a `TestAssertion`: string, number or
boolean (types.ts line 65). -/
inductive ExpectedVal
  | str (s : String)
  | num (n : Int)
  | boolV (b : Bool)
deriving DecidableEq

/-- The `TestAssertion` record of types.ts lines 62-67. -/
structure TestAssertion where
  type : AssertType
  selector : Option String := none
  expected : Option ExpectedVal := none
  description : String
deriving DecidableEq

/-- The `TraditionalTestCase` record of types.ts lines 47-51. -/
structure TraditionalTestCase where
  name : String
  steps : List TestStep
  assertions : List TestAssertion
deriving DecidableEq

/-- One `db.saveTestResult` record (types.ts lines 36-45; the
time-valued fields are not modelled). -/
structure TestResultRec where
  session_id : String
  test_name : String
  status : String
  error_message : Option String := none
deriving DecidableEq

/-- Mutable run state threaded through a run: the playwright call
counter and the `screenshots` array. -/
structure StepState where
  k : Nat
  screenshots : List String
deriving DecidableEq

/-- One awaited playwright call: consumes the next oracle entry. -/
def pwCall (env : Env) (st : StepState) : StepState × Except String Unit :=
  match env st.k with
  | none => ({ st with k := st.k + 1 }, Except.ok ())
  | some e => ({ st with k := st.k + 1 }, Except.error e)

/-- JS string rendering of an `expected` value inside a template
literal. -/
def showExpected : ExpectedVal → String
  | ExpectedVal.str s => s
  | ExpectedVal.num n => toString n
  | ExpectedVal.boolV b => if b then "true" else "false"

/-- JS strict equality of an actual string against the `expected`
field: only a string can be strictly equal to a string. -/
def eqExpectedStr (s : String) (e : ExpectedVal) : Bool :=
  match e with
  | ExpectedVal.str t => s == t
  | _ => false

/-- Embedding of `TraditionalTestExecutor.executeStep` (part_000 lines 100-166):
validates required fields, then dispatches one playwright call; `wait`
and `custom` contact no capability. -/
def executeStep (env : Env) (st : StepState) (step : TestStep) :
    StepState × Except String Unit :=
  match step.action with
  | StepAction.navigate =>
    if strFalsy step.url then (st, Except.error ("URL is required for navigate action"))
    else pwCall env st
  | StepAction.click =>
    if strFalsy step.selector then (st, Except.error ("Selector is required for click action"))
    else pwCall env st
  | StepAction.typeText =>
    if strFalsy step.selector || strFalsy step.value then
      (st, Except.error ("Selector and value are required for type action"))
    else pwCall env st
  | StepAction.select =>
    if strFalsy step.selector || strFalsy step.value then
      (st, Except.error ("Selector and value are required for select action"))
    else pwCall env st
  | StepAction.wait => (st, Except.ok ())
  | StepAction.screenshot =>
    let p := pwCall env st
    match p.2 with
    | Except.ok _ =>
      ({ p.1 with screenshots :=
          p.1.screenshots ++ [("screenshot_" ++ toString st.k ++ ".png")] },
       Except.ok ())
    | Except.error e => (p.1, Except.error e)
  | StepAction.custom => (st, Except.ok ())

/-- Embedding of `TraditionalTestExecutor.executeAssertion` (part_000 lines 168-256).
The element helpers are the placeholders of lines 259-295: a snapshot
call followed by a constant answer, with `exists`/`visible` swallowing
the snapshot failure into a false answer. -/
def executeAssertion (env : Env) (st : StepState) (a : TestAssertion) :
    StepState × Except String Unit :=
  match a.type with
  | AssertType.existsTag =>
    match a.selector with
    | none => (st, Except.error ("Selector is required for exists assertion"))
    | some sel =>
      if sel == "" then (st, Except.error ("Selector is required for exists assertion"))
      else
        let p := pwCall env st
        match p.2 with
        | Except.ok _ => (p.1, Except.ok ())
        | Except.error _ => (p.1, Except.error ("Element " ++ sel ++ " does not exist"))
  | AssertType.visible =>
    match a.selector with
    | none => (st, Except.error ("Selector is required for visible assertion"))
    | some sel =>
      if sel == "" then (st, Except.error ("Selector is required for visible assertion"))
      else
        let p := pwCall env st
        match p.2 with
        | Except.ok _ => (p.1, Except.ok ())
        | Except.error _ => (p.1, Except.error ("Element " ++ sel ++ " is not visible"))
  | AssertType.text =>
    match a.expected with
    | none => (st, Except.error ("Selector and expected text are required for text assertion"))
    | some exp =>
      if strFalsy a.selector then
        (st, Except.error ("Selector and expected text are required for text assertion"))
      else
        let p := pwCall env st
        match p.2 with
        | Except.error e => (p.1, Except.error e)
        | Except.ok _ =>
          if eqExpectedStr ("placeholder text") exp then (p.1, Except.ok ())
          else
            (p.1, Except.error ("Expected text \"" ++ showExpected exp ++
              "\", got \"placeholder text\""))
  | AssertType.value =>
    match a.expected with
    | none => (st, Except.error ("Selector and expected value are required for value assertion"))
    | some exp =>
      if strFalsy a.selector then
        (st, Except.error ("Selector and expected value are required for value assertion"))
      else
        let p := pwCall env st
        match p.2 with
        | Except.error e => (p.1, Except.error e)
        | Except.ok _ =>
          if eqExpectedStr ("placeholder value") exp then (p.1, Except.ok ())
          else
            (p.1, Except.error ("Expected value \"" ++ showExpected exp ++
              "\", got \"placeholder value\""))
  | AssertType.count =>
    match a.expected with
    | some (ExpectedVal.num n) =>
      if strFalsy a.selector then
        (st, Except.error ("Selector and expected count (number) are required for count assertion"))
      else
        let p := pwCall env st
        match p.2 with
        | Except.error e => (p.1, Except.error e)
        | Except.ok _ =>
          if n == 1 then (p.1, Except.ok ())
          else (p.1, Except.error ("Expected " ++ toString n ++ " elements, found 1"))
    | _ => (st, Except.error ("Selector and expected count (number) are required for count assertion"))
  | AssertType.custom => (st, Except.ok ())

/-- Passed `saveTestResult` record for a step or assertion (part_000
lines 30-35 and 54-59). -/
def passedRec (sid name desc : String) : TestResultRec :=
  { session_id := sid, test_name := name ++ " - " ++ desc, status := ("passed"),
    error_message := none }

/-- Failed `saveTestResult` record (part_000 lines 38-44 and 62-68). -/
def failedRec (sid name desc msg : String) : TestResultRec :=
  { session_id := sid, test_name := name ++ " - " ++ desc, status := ("failed"),
    error_message := some msg }

/-- The step loop of `executeTest` (part_000 lines 27-48): one record
per attempted step; the first failure stops the loop and is rethrown,
reported here as `some (index, message)`. -/
def runSteps (env : Env) (sid name : String) (st : StepState) :
    List TestStep → List TestResultRec × StepState × Option (Nat × String)
  | [] => ([], st, none)
  | s :: rest =>
    let p := executeStep env st s
    match p.2 with
    | Except.ok _ =>
      let r := runSteps env sid name p.1 rest
      (passedRec sid name s.description :: r.1, r.2.1,
       r.2.2.map (fun q => (q.1 + 1, q.2)))
    | Except.error e =>
      ([failedRec sid name s.description e], p.1, some (0, e))

/-- The assertion loop of `executeTest` (part_000 lines 51-71): one
record per assertion, failures contained; the boolean is whether any
assertion failed. -/
def runAssertions (env : Env) (sid name : String) (st : StepState) :
    List TestAssertion → List TestResultRec × StepState × Bool
  | [] => ([], st, false)
  | a :: rest =>
    let p := executeAssertion env st a
    match p.2 with
    | Except.ok _ =>
      let r := runAssertions env sid name p.1 rest
      (passedRec sid name a.description :: r.1, r.2.1, r.2.2)
    | Except.error e =>
      let r := runAssertions env sid name p.1 rest
      (failedRec sid name a.description e :: r.1, r.2.1, true)

/-- The `TestExecutionResult` record of types.ts lines 77-85. The `results` array
stays empty in the source; `logs` is a database read-through and
`execution_time_ms` is real time, so neither is modelled. -/
structure ExecResult where
  session_id : String
  success : Bool
  screenshots : List String
  error_summary : Option String := none
deriving DecidableEq

/-- A whole traditional run: the returned result plus the
`saveTestResult` records written during the run. -/
structure TradRun where
  result : ExecResult
  stepRecords : List TestResultRec
  assertRecords : List TestResultRec
deriving DecidableEq

/-- The `try` block of `TraditionalTestExecutor.executeTest` (part_000
lines 25-83): a step failure is rethrown out of the block, otherwise the
success result is returned. -/
def traditionalBody (env : Env) (sid : String) (tc : TraditionalTestCase) :
    Except String ExecResult :=
  let rs := runSteps env sid tc.name { k := 0, screenshots := [] } tc.steps
  match rs.2.2 with
  | some q => Except.error q.2
  | none =>
    let ra := runAssertions env sid tc.name rs.2.1 tc.assertions
    Except.ok
      { session_id := sid, success := !ra.2.2, screenshots := ra.2.1.screenshots,
        error_summary := none }

/-- Embedding of `TraditionalTestExecutor.executeTest` (part_000 lines 16-98): the
try block plus the catch of lines 84-97 converting the rethrown step
error into a failed result with `error_summary`. -/
def traditionalExecuteTest (env : Env) (sid : String) (tc : TraditionalTestCase) :
    TradRun :=
  let rs := runSteps env sid tc.name { k := 0, screenshots := [] } tc.steps
  match rs.2.2 with
  | some q =>
    { result := { session_id := sid, success := false, screenshots := rs.2.1.screenshots,
                  error_summary := some q.2 },
      stepRecords := rs.1, assertRecords := [] }
  | none =>
    let ra := runAssertions env sid tc.name rs.2.1 tc.assertions
    { result := { session_id := sid, success := !ra.2.2, screenshots := ra.2.1.screenshots,
                  error_summary := none },
      stepRecords := rs.1, assertRecords := ra.1 }

/-! The agentic executor (src/src/agentic-test-executor.ts). -/

/-- The `AgenticTestConfig` record of types.ts lines 69-75. -/
structure AgenticTestConfig where
  goal : String
  context : String
  success_criteria : List String
  max_attempts : Option Nat := none
  timeout_ms : Option Nat := none
deriving DecidableEq

/-- Embedding of `const maxAttempts = config.max_attempts || 3`
(agentic-test-executor.ts line 22). -/
def resolvedMaxAttempts (c : AgenticTestConfig) : Nat :=
  jsOrNat c.max_attempts 3

/-- Embedding of `const timeoutMs = config.timeout_ms || 300000`
(agentic-test-executor.ts line 23). The armed timer does not alter the
sequential flow of the run, so this value is only the one the timer is
armed with. -/
def resolvedTimeoutMs (c : AgenticTestConfig) : Nat :=
  jsOrNat c.timeout_ms 300000

/-- Plan action tags of agentic-test-executor.ts line 289. -/
inductive AgenticActionType
  | analyze_page
  | take_screenshot
  | click_element
  | type_text
  | navigate_to
  | wait_for_element
  | verify_success
deriving DecidableEq

/-- The `params` record of an `AgenticAction` (the keys the dispatcher
reads). -/
structure AgenticParams where
  selector : Option String := none
  text : Option String := none
  url : Option String := none
  timeout : Option Nat := none
deriving DecidableEq

/-- The `AgenticAction` record of agentic-test-executor.ts lines 288-292. -/
structure AgenticAction where
  type : AgenticActionType
  description : String
  params : AgenticParams := {}
deriving DecidableEq

/-- Embedding of `AgenticTestExecutor.planActions` (lines 154-175): the simulated
planner always returns the same two-action plan. -/
def planActions : List AgenticAction :=
  [ { type := AgenticActionType.analyze_page,
      description := "Analyze page structure and available elements" },
    { type := AgenticActionType.take_screenshot,
      description := "Capture current state for analysis" } ]

/-- Result record of `AgenticTestExecutor.checkSuccessCriteria`
(lines 258-285). -/
structure CriteriaCheck where
  success : Bool
  metCriteria : List String
  unmetCriteria : List String
deriving DecidableEq

/-- Embedding of `AgenticTestExecutor.checkSuccessCriteria` (lines 258-285): the
simulated judgment never moves a criterion into `metCriteria`, and
success is `metCriteria.length === criteria.length`. -/
def checkSuccessCriteria (criteria : List String) : CriteriaCheck :=
  let metCriteria : List String := []
  let unmetCriteria := criteria
  { success := metCriteria.length == criteria.length,
    metCriteria := metCriteria, unmetCriteria := unmetCriteria }

/-- Embedding of `AgenticTestExecutor.takeSnapshot` (lines 119-129): one playwright
snapshot call, errors rethrown. -/
def takeSnapshot (env : Env) (st : StepState) : StepState × Except String Unit :=
  pwCall env st

/-- Embedding of `AgenticTestExecutor.executeAgenticAction` (lines 177-256):
parameter validation then one playwright call; `wait_for_element` only
sleeps after validation. -/
def executeAgenticAction (env : Env) (st : StepState) (a : AgenticAction) :
    StepState × Except String Unit :=
  match a.type with
  | AgenticActionType.analyze_page => pwCall env st
  | AgenticActionType.take_screenshot =>
    let p := pwCall env st
    match p.2 with
    | Except.ok _ =>
      ({ p.1 with screenshots :=
          p.1.screenshots ++ [("agentic_screenshot_" ++ toString st.k ++ ".png")] },
       Except.ok ())
    | Except.error e => (p.1, Except.error e)
  | AgenticActionType.click_element =>
    if strFalsy a.params.selector then
      (st, Except.error ("Selector is required for click_element action"))
    else pwCall env st
  | AgenticActionType.type_text =>
    if strFalsy a.params.selector || strFalsy a.params.text then
      (st, Except.error ("Selector and text are required for type_text action"))
    else pwCall env st
  | AgenticActionType.navigate_to =>
    if strFalsy a.params.url then
      (st, Except.error ("URL is required for navigate_to action"))
    else pwCall env st
  | AgenticActionType.wait_for_element =>
    if strFalsy a.params.selector then
      (st, Except.error ("Selector is required for wait_for_element action"))
    else (st, Except.ok ())
  | AgenticActionType.verify_success => pwCall env st

/-- Observable events of an agentic run, mirroring the logging calls of
the attempt loop: the start-of-attempt log (line 40), a completed
`executeAgenticAction` (line 56), a completed criteria check (line 60)
and the per-attempt catch (line 87). -/
inductive AgEvent
  | attemptStart (n : Nat)
  | actionExec (t : AgenticActionType)
  | criteriaCheck (ok : Bool)
  | attemptError (msg : String)
deriving DecidableEq

/-- The inner plan loop (lines 55-67): after each completed action, a
fresh snapshot is taken and the success criteria re-checked; a reported
success breaks out of the plan. -/
def runPlan (env : Env) (criteria : List String) (st : StepState) :
    List AgenticAction → List AgEvent × StepState × Except String Bool
  | [] => ([], st, Except.ok false)
  | a :: rest =>
    let p := executeAgenticAction env st a
    match p.2 with
    | Except.error e => ([], p.1, Except.error e)
    | Except.ok _ =>
      let q := takeSnapshot env p.1
      match q.2 with
      | Except.error e => ([AgEvent.actionExec a.type], q.1, Except.error e)
      | Except.ok _ =>
        if (checkSuccessCriteria criteria).success then
          ([AgEvent.actionExec a.type, AgEvent.criteriaCheck true], q.1, Except.ok true)
        else
          let r := runPlan env criteria q.1 rest
          (AgEvent.actionExec a.type :: AgEvent.criteriaCheck false :: r.1, r.2.1, r.2.2)

/-- One attempt body (lines 42-67): initial snapshot, analysis and
planning (which never fail), then the plan loop. -/
def runAttempt (env : Env) (criteria : List String) (st : StepState) :
    List AgEvent × StepState × Except String Bool :=
  let p := takeSnapshot env st
  match p.2 with
  | Except.error e => ([], p.1, Except.error e)
  | Except.ok _ => runPlan env criteria p.1 planActions

/-- The `while (attempts < maxAttempts && !success)` loop (lines
38-99), with `fuel` the number of remaining iterations. Each iteration
logs its attempt number; an attempt error is caught and, like criteria
exhaustion, recorded via `saveTestResult` only once the budget is
spent. -/
def attemptLoop (env : Env) (criteria : List String) (sid gn : String) (mA : Nat) :
    Nat → Nat → StepState → List AgEvent × StepState × Bool × List TestResultRec
  | 0, _, st => ([], st, false, [])
  | fuel + 1, attempts, st =>
    let p := runAttempt env criteria st
    match p.2.2 with
    | Except.ok true =>
      (AgEvent.attemptStart (attempts + 1) :: p.1, p.2.1, true,
       [{ session_id := sid, test_name := gn, status := ("passed"), error_message := none }])
    | Except.ok false =>
      let r := attemptLoop env criteria sid gn mA fuel (attempts + 1) p.2.1
      (AgEvent.attemptStart (attempts + 1) :: p.1 ++ r.1, r.2.1, r.2.2.1,
       (if mA ≤ attempts + 1 then
          [{ session_id := sid, test_name := gn, status := ("failed"),
             error_message := some ("Failed to meet success criteria within maximum attempts") }]
        else []) ++ r.2.2.2)
    | Except.error e =>
      let r := attemptLoop env criteria sid gn mA fuel (attempts + 1) p.2.1
      (AgEvent.attemptStart (attempts + 1) :: p.1 ++ AgEvent.attemptError e :: r.1,
       r.2.1, r.2.2.1,
       (if mA ≤ attempts + 1 then
          [{ session_id := sid, test_name := gn, status := ("failed"), error_message := some e }]
        else []) ++ r.2.2.2)

/-- A whole agentic run: the returned result, the event trace and the
`saveTestResult` records. -/
structure AgenticRun where
  result : ExecResult
  trace : List AgEvent
  records : List TestResultRec
deriving DecidableEq

/-- Embedding of `AgenticTestExecutor.executeTest` (lines 16-117): resolve the falsy
defaults, run the attempt loop, and return the result; on failure the
`error_summary` names the unmet goal (line 114). -/
def agenticExecuteTest (env : Env) (sid : String) (config : AgenticTestConfig) :
    AgenticRun :=
  let mA := resolvedMaxAttempts config
  let gn := "Agentic Test: " ++ config.goal
  let r := attemptLoop env config.success_criteria sid gn mA mA 0 { k := 0, screenshots := [] }
  { result :=
      { session_id := sid, success := r.2.2.1, screenshots := r.2.1.screenshots,
        error_summary :=
          if r.2.2.1 then none else some ("Failed to achieve goal: " ++ config.goal) },
    trace := r.1, records := r.2.2.2 }

/-! The session-status write of the request handlers. -/

/-- The fields of the `updateTestSession` call the handlers issue after
an executor returns (playwright-client.ts lines 519-524 and 610-615). -/
structure SessionUpdate where
  status : String
  error_summary : Option String
deriving DecidableEq

/-- The status write `status: result.success ? completed : failed` issued by
`handleTraditionalTest` and `handleAgenticTest`. -/
def handlerSessionUpdate (r : ExecResult) : SessionUpdate :=
  { status := if r.success then ("completed") else ("failed"),
    error_summary := r.error_summary }

/-! Trace observation helpers (specification side). -/

/-- Is the event a start-of-attempt log entry. -/
def isAttemptStartB : AgEvent → Bool
  | AgEvent.attemptStart _ => true
  | _ => false

/-- Is the event a completed plan-action execution. -/
def isActionExecB : AgEvent → Bool
  | AgEvent.actionExec _ => true
  | _ => false

/-- Is the event a completed success-criteria check. -/
def isCriteriaCheckB : AgEvent → Bool
  | AgEvent.criteriaCheck _ => true
  | _ => false

/-- Is the event a successful criteria check. -/
def isSuccessCheck : AgEvent → Bool
  | AgEvent.criteriaCheck true => true
  | _ => false

/-- State machine scanning a trace: the state records whether the
previous event was a completed action still awaiting its criteria
re-evaluation; `none` means a violation (a new action or a new attempt
started before the pending evaluation, or the trace ended on one). -/
def cfaRun : Bool → List AgEvent → Option Bool
  | p, [] => some p
  | p, AgEvent.actionExec _ :: rest => if p then none else cfaRun true rest
  | _, AgEvent.criteriaCheck _ :: rest => cfaRun false rest
  | _, AgEvent.attemptError _ :: rest => cfaRun false rest
  | p, AgEvent.attemptStart _ :: rest => if p then none else cfaRun false rest

/-- No event of the trace is a successful criteria check. -/
def noSuccEv (tr : List AgEvent) : Bool :=
  tr.all (fun e => !isSuccessCheck e)

/-- All events are neither action executions nor attempt starts. -/
def cleanTail (tr : List AgEvent) : Bool :=
  tr.all (fun e => !isActionExecB e && !isAttemptStartB e)

/-- After the first successful criteria check, no further plan action
executes and no further attempt starts. -/
def afterSuccessClean : List AgEvent → Bool
  | [] => true
  | e :: rest => if isSuccessCheck e then cleanTail rest else afterSuccessClean rest

/-! Resolver lemmas. -/

/-- The pick `pickLongest` never answers `none` on a nonempty list. -/
theorem pickLongest_eq_none (l : List SystemInstruction) :
    pickLongest l = none ↔ l = [] := by
  cases l with
  | nil => simp [pickLongest]
  | cons a t =>
    simp only [pickLongest]
    cases pickLongest t with
    | none => simp
    | some b =>
      dsimp only
      split <;> simp

/-- A `pickLongest` answer is drawn from the list. -/
theorem pickLongest_mem :
    ∀ (l : List SystemInstruction) (c : SystemInstruction), pickLongest l = some c → c ∈ l := by
  intro l
  induction l with
  | nil => intro c h; simp [pickLongest] at h
  | cons a t ih =>
    intro c h
    simp only [pickLongest] at h
    cases hr : pickLongest t with
    | none =>
      rw [hr] at h
      simp only [Option.some.injEq] at h
      simp [h.symm]
    | some b =>
      rw [hr] at h
      dsimp only at h
      split at h
      · simp only [Option.some.injEq] at h
        exact List.mem_cons_of_mem _ (h ▸ ih b hr)
      · simp only [Option.some.injEq] at h
        simp [h.symm]

/-- A `pickLongest` answer has maximal pattern length in the list. -/
theorem pickLongest_max :
    ∀ (l : List SystemInstruction) (c : SystemInstruction), pickLongest l = some c →
      ∀ d ∈ l, d.url_pattern.length ≤ c.url_pattern.length := by
  intro l
  induction l with
  | nil => intro c h; simp [pickLongest] at h
  | cons a t ih =>
    intro c h d hd
    simp only [pickLongest] at h
    rcases List.mem_cons.mp hd with hda | hdt
    · subst hda
      cases hr : pickLongest t with
      | none =>
        rw [hr] at h
        simp only [Option.some.injEq] at h
        simp [h]
      | some b =>
        rw [hr] at h
        dsimp only at h
        split at h
        · simp only [Option.some.injEq] at h
          subst h
          omega
        · simp only [Option.some.injEq] at h
          simp [h]
    · cases hr : pickLongest t with
      | none =>
        rw [(pickLongest_eq_none t).mp hr] at hdt
        simp at hdt
      | some b =>
        have hb := ih b hr d hdt
        rw [hr] at h
        dsimp only at h
        split at h
        · simp only [Option.some.injEq] at h
          subst h
          exact hb
        · rename_i hnb
          simp only [Option.some.injEq] at h
          subst h
          omega

/-- Filtering with an everywhere-false predicate yields the empty list. -/
theorem filter_eq_nil_of_none {α : Type} (p : α → Bool) :
    ∀ l : List α, (∀ d ∈ l, p d = false) → l.filter p = [] := by
  intro l
  induction l with
  | nil => intro h; rfl
  | cons a t ih =>
    intro h
    have ha := h a (List.mem_cons_self a t)
    simp [List.filter_cons, ha, ih (fun d hd => h d (List.mem_cons_of_mem _ hd))]

/-- The two concrete configurations of the specification scenario:
pattern lengths 5 and 12, both plain substrings of `demoUrl`. -/
def demoUrl : String := "https://shop.com/checkout"

/-- Active configuration with a five-character pattern. -/
def cfgLen5 : SystemInstruction :=
  { id := 1, url_pattern := "shop.", name := "five", instructions := "steps",
    test_type := "traditional", is_active := true }

/-- Active configuration with a twelve-character pattern. -/
def cfgLen12 : SystemInstruction :=
  { id := 2, url_pattern := "com/checkout", name := "twelve", instructions := "steps",
    test_type := "traditional", is_active := true }

/-- C3: both resolvers select, among the configurations passing their
match test, one whose `url_pattern` is of maximal length (so with active
matching patterns of lengths 5 and 12 the length-12 one is selected),
and both return none when no configuration matches. -/
theorem C3_longest_pattern_selected :
    (∀ url (configs : List SystemInstruction) c,
        findBestMatchingConfig url configs = some c →
        c ∈ configs ∧ matchesPattern url c.url_pattern = true ∧
        ∀ d ∈ configs, matchesPattern url d.url_pattern = true →
          d.url_pattern.length ≤ c.url_pattern.length) ∧
    (∀ url (configs : List SystemInstruction),
        (∀ d ∈ configs, matchesPattern url d.url_pattern = false) →
        findBestMatchingConfig url configs = none) ∧
    (∀ url tt (rows : List SystemInstruction) c,
        getSystemInstructionByUrl url tt rows = some c →
        c ∈ rows ∧ dbMatch url tt c = true ∧
        ∀ d ∈ rows, dbMatch url tt d = true → d.url_pattern.length ≤ c.url_pattern.length) ∧
    (∀ url tt (rows : List SystemInstruction),
        (∀ d ∈ rows, dbMatch url tt d = false) →
        getSystemInstructionByUrl url tt rows = none) ∧
    cfgLen5.url_pattern.length = 5 ∧ cfgLen12.url_pattern.length = 12 ∧
    cfgLen5.is_active = true ∧ cfgLen12.is_active = true ∧
    matchesPattern demoUrl cfgLen5.url_pattern = true ∧
    matchesPattern demoUrl cfgLen12.url_pattern = true ∧
    findBestMatchingConfig demoUrl [cfgLen5, cfgLen12] = some cfgLen12 ∧
    getSystemInstructionByUrl demoUrl none [cfgLen5, cfgLen12] = some cfgLen12 := by
  refine ⟨?_, ?_, ?_, ?_, ?_⟩
  · intro url configs c h
    have hm := pickLongest_mem _ _ h
    have hf := List.mem_filter.mp hm
    refine ⟨hf.1, hf.2, ?_⟩
    intro d hd hmd
    exact pickLongest_max _ _ h d (List.mem_filter.mpr ⟨hd, hmd⟩)
  · intro url configs hall
    have : configs.filter (fun c => matchesPattern url c.url_pattern) = [] := by
      apply filter_eq_nil_of_none
      intro d hd
      exact hall d hd
    simp [findBestMatchingConfig, this, pickLongest]
  · intro url tt rows c h
    have hm := pickLongest_mem _ _ h
    have hf := List.mem_filter.mp hm
    refine ⟨hf.1, hf.2, ?_⟩
    intro d hd hmd
    exact pickLongest_max _ _ h d (List.mem_filter.mpr ⟨hd, hmd⟩)
  · intro url tt rows hall
    have : rows.filter (dbMatch url tt) = [] := by
      apply filter_eq_nil_of_none
      intro d hd
      exact hall d hd
    simp [getSystemInstructionByUrl, this, pickLongest]
  · decide

theorem C3_longest_pattern_selected_witness :
    findBestMatchingConfig demoUrl [cfgLen5, cfgLen12] = some cfgLen12 ∧
    (cfgLen12 ∈ [cfgLen5, cfgLen12] ∧ matchesPattern demoUrl cfgLen12.url_pattern = true ∧
      ∀ d ∈ [cfgLen5, cfgLen12], matchesPattern demoUrl d.url_pattern = true →
        d.url_pattern.length ≤ cfgLen12.url_pattern.length) :=
  ⟨by decide, C3_longest_pattern_selected.1 demoUrl [cfgLen5, cfgLen12] cfgLen12 (by decide)⟩

/-- An active configuration whose pattern carries a wildcard. -/
def wcCfg : SystemInstruction :=
  { id := 3, url_pattern := "a*b", name := "wildcard", instructions := "steps",
    test_type := "traditional", is_active := true }

/-- C4 counterexample: for the url "axxxb" the stored active pattern
"a*b" passes the wildcard regular-expression test (and the unused helper
`findBestMatchingConfig` would select it), yet the resolver the request
handlers actually call, `getSystemInstructionByUrl`, treats the pattern
as a plain substring and selects nothing. -/
theorem C4_counterexample :
    wcCfg.is_active = true ∧
    wcCfg.url_pattern.toList.contains '*' = true ∧
    globMatch wcCfg.url_pattern "axxxb" = true ∧
    findBestMatchingConfig "axxxb" [wcCfg] = some wcCfg ∧
    getSystemInstructionByUrl "axxxb" none [wcCfg] = none := by
  decide

/-- C4 (amended): the helper `findBestMatchingConfig` treats a wildcard
pattern as an expanded regular expression and a plain pattern as a
substring test, never selecting a configuration that fails its
applicable test; the database resolver used by the handlers applies only
the plain substring test to every pattern and never selects an inactive
or substring-failing configuration. -/
theorem C4_wildcard_semantics :
    (∀ url pattern, pattern.toList.contains '*' = true →
        matchesPattern url pattern = globMatch pattern url) ∧
    (∀ url pattern, pattern.toList.contains '*' = false →
        matchesPattern url pattern = substrTest pattern url) ∧
    (∀ url (configs : List SystemInstruction) c,
        findBestMatchingConfig url configs = some c →
        matchesPattern url c.url_pattern = true) ∧
    (∀ url tt (rows : List SystemInstruction) c,
        getSystemInstructionByUrl url tt rows = some c →
        c.is_active = true ∧ substrTest c.url_pattern url = true) := by
  refine ⟨?_, ?_, ?_, ?_⟩
  · intro url pattern h
    unfold matchesPattern
    rw [if_pos h]
  · intro url pattern h
    unfold matchesPattern
    rw [if_neg (by rw [h]; exact Bool.false_ne_true)]
  · intro url configs c h
    exact (List.mem_filter.mp (pickLongest_mem _ _ h)).2
  · intro url tt rows c h
    have hf := (List.mem_filter.mp (pickLongest_mem _ _ h)).2
    simp only [dbMatch, Bool.and_eq_true] at hf
    exact ⟨hf.1.1, hf.2⟩

theorem C4_wildcard_semantics_witness :
    getSystemInstructionByUrl demoUrl none [cfgLen5] = some cfgLen5 ∧
    (cfgLen5.is_active = true ∧ substrTest cfgLen5.url_pattern demoUrl = true) :=
  ⟨by decide, C4_wildcard_semantics.2.2.2 demoUrl none [cfgLen5] cfgLen5 (by decide)⟩

/-! Traditional executor lemmas. -/

/-- String scrutiny helper: a passed record never tests as failed. -/
theorem passed_beq_failed : ((("passed" : String) == "failed")) = false := by decide

/-- If the step loop reports a failure at index `i`, the loop produced
exactly one passed record per earlier step and one failed record for the
failing step, and nothing further. -/
theorem runSteps_error (env : Env) (sid name : String) :
    ∀ (steps : List TestStep) (st : StepState) (i : Nat) (msg : String),
      (runSteps env sid name st steps).2.2 = some (i, msg) →
      ∃ s, steps.get? i = some s ∧
        (runSteps env sid name st steps).1 =
          (steps.take i).map (fun q => passedRec sid name q.description) ++
            [failedRec sid name s.description msg] := by
  intro steps
  induction steps with
  | nil => intro st i msg h; simp [runSteps] at h
  | cons s rest ih =>
    intro st i msg h
    simp only [runSteps] at h ⊢
    cases hE : (executeStep env st s).2 with
    | ok u =>
      rw [hE] at h
      dsimp only at h ⊢
      rcases Option.map_eq_some'.mp h with ⟨q, hq, hqm⟩
      obtain ⟨j, m⟩ := q
      injection hqm with hi hm
      subst hi
      subst hm
      rcases ih (executeStep env st s).1 j m hq with ⟨s', hget, hrec⟩
      refine ⟨s', ?_, ?_⟩
      · simpa using hget
      · rw [hrec]
        simp [List.take_succ_cons]
    | error e =>
      rw [hE] at h
      dsimp only at h ⊢
      injection h with hp
      injection hp with hi hm
      subst hi
      subst hm
      exact ⟨s, rfl, rfl⟩

/-- The assertion loop produces exactly one record per assertion, in
order and with the assertion's name, and reports a failure exactly when
some record is failed. -/
theorem runAssertions_spec (env : Env) (sid name : String) :
    ∀ (al : List TestAssertion) (st : StepState),
      (runAssertions env sid name st al).1.map (fun r => r.test_name) =
        al.map (fun a => name ++ " - " ++ a.description) ∧
      (runAssertions env sid name st al).1.length = al.length ∧
      (runAssertions env sid name st al).2.2 =
        (runAssertions env sid name st al).1.any (fun r => r.status == "failed") := by
  intro al
  induction al with
  | nil => intro st; simp [runAssertions]
  | cons a rest ih =>
    intro st
    cases hE : (executeAssertion env st a).2 with
    | ok u =>
      obtain ⟨h1, h2, h3⟩ := ih (executeAssertion env st a).1
      simp only [runAssertions, hE]
      refine ⟨?_, ?_, ?_⟩
      · simp [passedRec, h1]
      · simp [h2]
      · simp [List.any_cons, passedRec, passed_beq_failed, h3]
    | error e =>
      obtain ⟨h1, h2, h3⟩ := ih (executeAssertion env st a).1
      simp only [runAssertions, hE]
      refine ⟨?_, ?_, ?_⟩
      · simp [failedRec, h1]
      · simp [h2]
      · simp [List.any_cons, failedRec]

/-- C1: traditional fail-fast. If step `i` of a run raises, the result
is failed with that error as `error_summary`, no assertion is executed,
and the step records are exactly one passed record per step before `i`
plus the failing record of step `i` - steps after `i` are never run. -/
theorem C1_traditional_fail_fast (env : Env) (sid : String) (tc : TraditionalTestCase)
    (i : Nat) (msg : String)
    (h : (runSteps env sid tc.name { k := 0, screenshots := [] } tc.steps).2.2 = some (i, msg)) :
    (traditionalExecuteTest env sid tc).result.success = false ∧
    (traditionalExecuteTest env sid tc).result.error_summary = some msg ∧
    (traditionalExecuteTest env sid tc).assertRecords = [] ∧
    ∃ s, tc.steps.get? i = some s ∧
      (traditionalExecuteTest env sid tc).stepRecords =
        (tc.steps.take i).map (fun q => passedRec sid tc.name q.description) ++
          [failedRec sid tc.name s.description msg] := by
  have hs := runSteps_error env sid tc.name tc.steps { k := 0, screenshots := [] } i msg h
  simp only [traditionalExecuteTest, h]
  simpa using hs

theorem C1_traditional_fail_fast_witness :
    (runSteps (fun k => if k == 1 then some ("boom") else none) "s"
        "t" { k := 0, screenshots := [] }
        [{ action := StepAction.navigate, url := some ("https://x"), description := "go" },
         { action := StepAction.click, selector := some ("#b"), description := "press" }]).2.2 =
      some (1, "boom") ∧
    (traditionalExecuteTest (fun k => if k == 1 then some ("boom") else none) "s"
        { name := "t",
          steps := [{ action := StepAction.navigate, url := some ("https://x"), description := "go" },
                    { action := StepAction.click, selector := some ("#b"), description := "press" }],
          assertions := [{ type := AssertType.existsTag, selector := some ("#e"),
                           description := "there" }] }).result.success = false ∧
    (traditionalExecuteTest (fun k => if k == 1 then some ("boom") else none) "s"
        { name := "t",
          steps := [{ action := StepAction.navigate, url := some ("https://x"), description := "go" },
                    { action := StepAction.click, selector := some ("#b"), description := "press" }],
          assertions := [{ type := AssertType.existsTag, selector := some ("#e"),
                           description := "there" }] }).assertRecords = [] :=
  ⟨by rfl,
    (C1_traditional_fail_fast (fun k => if k == 1 then some ("boom") else none) "s"
      { name := "t",
        steps := [{ action := StepAction.navigate, url := some ("https://x"), description := "go" },
                  { action := StepAction.click, selector := some ("#b"), description := "press" }],
        assertions := [{ type := AssertType.existsTag, selector := some ("#e"),
                         description := "there" }] } 1 "boom" (by rfl)).1,
    (C1_traditional_fail_fast (fun k => if k == 1 then some ("boom") else none) "s"
      { name := "t",
        steps := [{ action := StepAction.navigate, url := some ("https://x"), description := "go" },
                  { action := StepAction.click, selector := some ("#b"), description := "press" }],
        assertions := [{ type := AssertType.existsTag, selector := some ("#e"),
                         description := "there" }] } 1 "boom" (by rfl)).2.2.1⟩

/-- C2: assertion independence. When every step succeeded, the run
produces exactly one record per assertion, in order and named after the
assertion, and the run is failed exactly when some assertion record is
failed - later assertions still run after an earlier failure. -/
theorem C2_assertion_independence (env : Env) (sid : String) (tc : TraditionalTestCase)
    (h : (runSteps env sid tc.name { k := 0, screenshots := [] } tc.steps).2.2 = none) :
    (traditionalExecuteTest env sid tc).assertRecords.map (fun r => r.test_name) =
      tc.assertions.map (fun a => tc.name ++ " - " ++ a.description) ∧
    (traditionalExecuteTest env sid tc).assertRecords.length = tc.assertions.length ∧
    ((traditionalExecuteTest env sid tc).result.success = false ↔
      (traditionalExecuteTest env sid tc).assertRecords.any
        (fun r => r.status == "failed") = true) := by
  obtain ⟨h1, h2, h3⟩ := runAssertions_spec env sid tc.name tc.assertions
    (runSteps env sid tc.name { k := 0, screenshots := [] } tc.steps).2.1
  simp only [traditionalExecuteTest, h]
  refine ⟨h1, h2, ?_⟩
  rw [h3]
  cases hb : (runAssertions env sid tc.name
      (runSteps env sid tc.name { k := 0, screenshots := [] } tc.steps).2.1
      tc.assertions).1.any (fun r => r.status == "failed") <;> simp [hb]

theorem C2_assertion_independence_witness :
    (runSteps (fun _ => none) "s" "t" { k := 0, screenshots := [] }
        ([] : List TestStep)).2.2 = none ∧
    (traditionalExecuteTest (fun _ => none) "s"
        { name := "t", steps := [],
          assertions :=
            [{ type := AssertType.existsTag, selector := some ("#e"), description := "there" },
             { type := AssertType.text, selector := some ("#t"),
               expected := some (ExpectedVal.str ("nope")), description := "reads" }] }
      ).assertRecords.length =
      ([{ type := AssertType.existsTag, selector := some ("#e"), description := "there" },
        { type := AssertType.text, selector := some ("#t"),
          expected := some (ExpectedVal.str ("nope")), description := "reads" }] :
        List TestAssertion).length :=
  ⟨rfl,
    (C2_assertion_independence (fun _ => none) "s"
      { name := "t", steps := [],
        assertions :=
          [{ type := AssertType.existsTag, selector := some ("#e"), description := "there" },
           { type := AssertType.text, selector := some ("#t"),
             expected := some (ExpectedVal.str ("nope")), description := "reads" }] }
      (by rfl)).2.1⟩

/-- C7: total error containment. The traditional executor converts the
error rethrown out of its try block into a failed result carrying it as
`error_summary`, and otherwise returns the try block's result; both
executors return a well-formed result for every oracle and input, the
agentic one with an `error_summary` that names the unmet goal exactly
when the run failed. The armed timeout timer never alters the
sequential flow, so a run past its deadline returns the same way. -/
theorem C7_total_error_containment :
    (∀ env sid tc e, traditionalBody env sid tc = Except.error e →
        (traditionalExecuteTest env sid tc).result.success = false ∧
        (traditionalExecuteTest env sid tc).result.error_summary = some e ∧
        (traditionalExecuteTest env sid tc).result.session_id = sid) ∧
    (∀ env sid tc r, traditionalBody env sid tc = Except.ok r →
        (traditionalExecuteTest env sid tc).result = r) ∧
    (∀ env sid tc, (traditionalExecuteTest env sid tc).result.session_id = sid) ∧
    (∀ env sid cfg,
        (agenticExecuteTest env sid cfg).result.session_id = sid ∧
        (agenticExecuteTest env sid cfg).result.error_summary =
          (if (agenticExecuteTest env sid cfg).result.success then none
           else some ("Failed to achieve goal: " ++ cfg.goal))) := by
  refine ⟨?_, ?_, ?_, ?_⟩
  · intro env sid tc e h
    simp only [traditionalBody] at h
    simp only [traditionalExecuteTest]
    cases herr : (runSteps env sid tc.name { k := 0, screenshots := [] } tc.steps).2.2 with
    | some q =>
      rw [herr] at h
      dsimp only at h
      injection h with he
      subst he
      exact ⟨rfl, rfl, rfl⟩
    | none =>
      rw [herr] at h
      dsimp only at h
      exact absurd h (by simp)
  · intro env sid tc r h
    simp only [traditionalBody] at h
    simp only [traditionalExecuteTest]
    cases herr : (runSteps env sid tc.name { k := 0, screenshots := [] } tc.steps).2.2 with
    | some q =>
      rw [herr] at h
      dsimp only at h
      exact absurd h (by simp)
    | none =>
      rw [herr] at h
      dsimp only at h
      injection h with he
  · intro env sid tc
    simp only [traditionalExecuteTest]
    cases herr : (runSteps env sid tc.name { k := 0, screenshots := [] } tc.steps).2.2 <;>
      rfl
  · intro env sid cfg
    exact ⟨rfl, rfl⟩

theorem C7_total_error_containment_witness :
    traditionalBody (fun _ => some ("boom")) "s"
        { name := "t",
          steps := [{ action := StepAction.navigate, url := some ("https://x"),
                      description := "go" }],
          assertions := [] } = Except.error ("boom") ∧
    ((traditionalExecuteTest (fun _ => some ("boom")) "s"
        { name := "t",
          steps := [{ action := StepAction.navigate, url := some ("https://x"),
                      description := "go" }],
          assertions := [] }).result.success = false ∧
      (traditionalExecuteTest (fun _ => some ("boom")) "s"
        { name := "t",
          steps := [{ action := StepAction.navigate, url := some ("https://x"),
                      description := "go" }],
          assertions := [] }).result.error_summary = some ("boom") ∧
      (traditionalExecuteTest (fun _ => some ("boom")) "s"
        { name := "t",
          steps := [{ action := StepAction.navigate, url := some ("https://x"),
                      description := "go" }],
          assertions := [] }).result.session_id = "s") :=
  ⟨by rfl,
    C7_total_error_containment.1 (fun _ => some ("boom")) "s"
      { name := "t",
        steps := [{ action := StepAction.navigate, url := some ("https://x"),
                    description := "go" }],
        assertions := [] } "boom" (by rfl)⟩

/-- C8: the terminal session status the handlers write agrees with the
result's success flag: `completed` iff `success = true` and `failed`
iff `success = false`. -/
theorem C8_session_status_agreement (r : ExecResult) :
    ((handlerSessionUpdate r).status = "completed" ↔ r.success = true) ∧
    ((handlerSessionUpdate r).status = "failed" ↔ r.success = false) := by
  cases hr : r.success <;> simp [handlerSessionUpdate, hr]

/-! Agentic executor lemmas. -/

/-- The simulated criteria check reports success exactly on an empty
criteria list, and never moves a criterion into `metCriteria`. -/
theorem checkSuccessCriteria_success (criteria : List String) :
    ((checkSuccessCriteria criteria).success = true ↔ criteria = []) ∧
    (checkSuccessCriteria criteria).metCriteria = [] := by
  cases criteria <;> simp [checkSuccessCriteria]

/-- With a nonempty criteria list the check is false. -/
theorem checkSuccessCriteria_false (criteria : List String) (h : criteria ≠ []) :
    (checkSuccessCriteria criteria).success = false := by
  cases hb : (checkSuccessCriteria criteria).success with
  | false => rfl
  | true => exact absurd ((checkSuccessCriteria_success criteria).1.mp hb) h

/-- With nonempty criteria the plan loop never reports success. -/
theorem runPlan_no_success (env : Env) (criteria : List String) (h : criteria ≠ []) :
    ∀ (plan : List AgenticAction) (st : StepState),
      (runPlan env criteria st plan).2.2 ≠ Except.ok true := by
  have hcs := checkSuccessCriteria_false criteria h
  intro plan
  induction plan with
  | nil => intro st hc; simp [runPlan] at hc
  | cons a rest ih =>
    intro st hc
    simp only [runPlan] at hc
    cases hE : (executeAgenticAction env st a).2 with
    | error e =>
      rw [hE] at hc
      dsimp only at hc
      exact absurd hc (by simp)
    | ok u =>
      rw [hE] at hc
      dsimp only at hc
      cases hS : (takeSnapshot env (executeAgenticAction env st a).1).2 with
      | error e2 =>
        rw [hS] at hc
        dsimp only at hc
        exact absurd hc (by simp)
      | ok v =>
        rw [hS] at hc
        dsimp only at hc
        rw [if_neg (by rw [hcs]; exact Bool.false_ne_true)] at hc
        exact ih _ hc

/-- With nonempty criteria an attempt never reports success. -/
theorem runAttempt_no_success (env : Env) (criteria : List String) (h : criteria ≠ [])
    (st : StepState) : (runAttempt env criteria st).2.2 ≠ Except.ok true := by
  intro hc
  simp only [runAttempt] at hc
  cases hS : (takeSnapshot env st).2 with
  | error e =>
    rw [hS] at hc
    dsimp only at hc
    exact absurd hc (by simp)
  | ok v =>
    rw [hS] at hc
    dsimp only at hc
    exact runPlan_no_success env criteria h planActions _ hc

/-- Plan-loop events never contain a start-of-attempt entry. -/
theorem runPlan_no_attemptStart (env : Env) (criteria : List String) :
    ∀ (plan : List AgenticAction) (st : StepState),
      (runPlan env criteria st plan).1.filter isAttemptStartB = [] := by
  intro plan
  induction plan with
  | nil => intro st; simp [runPlan]
  | cons a rest ih =>
    intro st
    simp only [runPlan]
    cases hE : (executeAgenticAction env st a).2 with
    | error e => simp
    | ok u =>
      dsimp only
      cases hS : (takeSnapshot env (executeAgenticAction env st a).1).2 with
      | error e2 => simp [isAttemptStartB]
      | ok v =>
        dsimp only
        cases hc : (checkSuccessCriteria criteria).success with
        | true => simp [isAttemptStartB]
        | false => simp [isAttemptStartB, ih]

/-- Attempt-body events never contain a start-of-attempt entry. -/
theorem runAttempt_no_attemptStart (env : Env) (criteria : List String) (st : StepState) :
    (runAttempt env criteria st).1.filter isAttemptStartB = [] := by
  simp only [runAttempt]
  cases hS : (takeSnapshot env st).2 with
  | error e => simp
  | ok v =>
    dsimp only
    exact runPlan_no_attemptStart env criteria planActions _

/-- Prepending the image of zero shifts a map over an initial segment. -/
theorem map_range_shift (g : Nat → AgEvent) (f : Nat) :
    g 0 :: List.map (fun j => g (j + 1)) (List.range f) = List.map g (List.range (f + 1)) := by
  rw [List.range_succ_eq_map]
  simp [List.map_map, Function.comp, Nat.succ_eq_add_one]

/-- With nonempty criteria the attempt loop consumes its whole budget:
it never succeeds and logs exactly one start-of-attempt entry per
remaining iteration, numbered consecutively. -/
theorem attemptLoop_exhaust (env : Env) (criteria : List String) (sid gn : String)
    (mA : Nat) (h : criteria ≠ []) :
    ∀ (fuel attempts : Nat) (st : StepState),
      (attemptLoop env criteria sid gn mA fuel attempts st).2.2.1 = false ∧
      (attemptLoop env criteria sid gn mA fuel attempts st).1.filter isAttemptStartB =
        (List.range fuel).map (fun j => AgEvent.attemptStart (attempts + 1 + j)) := by
  intro fuel
  induction fuel with
  | zero => intro attempts st; simp [attemptLoop]
  | succ f ih =>
    intro attempts st
    simp only [attemptLoop]
    cases hR : (runAttempt env criteria st).2.2 with
    | ok b =>
      cases b with
      | true => exact absurd hR (runAttempt_no_success env criteria h st)
      | false =>
        dsimp only
        obtain ⟨ih1, ih2⟩ := ih (attempts + 1) (runAttempt env criteria st).2.1
        refine ⟨ih1, ?_⟩
        rw [← map_range_shift (fun j => AgEvent.attemptStart (attempts + 1 + j)) f]
        have hsh : (fun j => AgEvent.attemptStart (attempts + 1 + 1 + j)) =
            (fun j => AgEvent.attemptStart (attempts + 1 + (j + 1))) := by
          funext j
          have hj : attempts + 1 + 1 + j = attempts + 1 + (j + 1) := by omega
          rw [hj]
        rw [hsh] at ih2
        simp [List.filter_append, runAttempt_no_attemptStart env criteria st, ih2,
          isAttemptStartB]
    | error e =>
      dsimp only
      obtain ⟨ih1, ih2⟩ := ih (attempts + 1) (runAttempt env criteria st).2.1
      refine ⟨ih1, ?_⟩
      rw [← map_range_shift (fun j => AgEvent.attemptStart (attempts + 1 + j)) f]
      have hsh : (fun j => AgEvent.attemptStart (attempts + 1 + 1 + j)) =
          (fun j => AgEvent.attemptStart (attempts + 1 + (j + 1))) := by
        funext j
        have hj : attempts + 1 + 1 + j = attempts + 1 + (j + 1) := by omega
        rw [hj]
      rw [hsh] at ih2
      simp [List.filter_append, runAttempt_no_attemptStart env criteria st, ih2,
        isAttemptStartB]

/-- The resolved attempt budget is always at least one. -/
theorem resolvedMaxAttempts_pos (c : AgenticTestConfig) :
    ∃ f, resolvedMaxAttempts c = f + 1 := by
  unfold resolvedMaxAttempts jsOrNat
  rcases c.max_attempts with _ | n
  · exact ⟨2, rfl⟩
  · cases n with
    | zero => exact ⟨2, rfl⟩
    | succ m => exact ⟨m, rfl⟩

/-- C5: with `max_attempts = 3` and a nonempty criteria list (on which
the check never reports success), every agentic run logs exactly the
attempt numbers 1, 2 and 3, fails, and names the unmet goal in
`error_summary` - whatever the automation oracle does. -/
theorem C5_attempt_budget (env : Env) (sid goal ctx : String) (criteria : List String)
    (tm : Option Nat) (h : criteria ≠ []) :
    ((agenticExecuteTest env sid
        { goal := goal, context := ctx, success_criteria := criteria,
          max_attempts := some 3, timeout_ms := tm }).trace.filter isAttemptStartB =
      [AgEvent.attemptStart 1, AgEvent.attemptStart 2, AgEvent.attemptStart 3]) ∧
    (agenticExecuteTest env sid
        { goal := goal, context := ctx, success_criteria := criteria,
          max_attempts := some 3, timeout_ms := tm }).result.success = false ∧
    (agenticExecuteTest env sid
        { goal := goal, context := ctx, success_criteria := criteria,
          max_attempts := some 3, timeout_ms := tm }).result.error_summary =
      some ("Failed to achieve goal: " ++ goal) := by
  obtain ⟨h1, h2⟩ := attemptLoop_exhaust env criteria sid ("Agentic Test: " ++ goal) 3 h 3 0
    { k := 0, screenshots := [] }
  have hmA : resolvedMaxAttempts
      { goal := goal, context := ctx, success_criteria := criteria,
        max_attempts := some 3, timeout_ms := tm } = 3 := rfl
  simp only [agenticExecuteTest, hmA]
  refine ⟨?_, h1, ?_⟩
  · rw [h2]
    decide
  · rw [h1]
    simp

theorem C5_attempt_budget_witness :
    (["never"] : List String) ≠ [] ∧
    ((agenticExecuteTest (fun _ => none) "s"
        { goal := "g", context := "c", success_criteria := ["never"],
          max_attempts := some 3, timeout_ms := none }).trace.filter isAttemptStartB =
      [AgEvent.attemptStart 1, AgEvent.attemptStart 2, AgEvent.attemptStart 3]) ∧
    (agenticExecuteTest (fun _ => none) "s"
        { goal := "g", context := "c", success_criteria := ["never"],
          max_attempts := some 3, timeout_ms := none }).result.success = false :=
  ⟨by decide,
    (C5_attempt_budget (fun _ => none) "s" "g" "c" ["never"] none (by decide)).1,
    (C5_attempt_budget (fun _ => none) "s" "g" "c" ["never"] none (by decide)).2.1⟩

/-- C9: the simulated criteria check succeeds exactly on an empty
criteria list; hence a run with nonempty criteria can never succeed,
while a run with empty criteria and a healthy automation capability
succeeds right after its first executed plan action. -/
theorem C9_criteria_check_degenerate :
    (∀ criteria : List String,
        ((checkSuccessCriteria criteria).success = true ↔ criteria = []) ∧
        (checkSuccessCriteria criteria).metCriteria = []) ∧
    (∀ (env : Env) (sid : String) (cfg : AgenticTestConfig),
        cfg.success_criteria ≠ [] →
        (agenticExecuteTest env sid cfg).result.success = false) ∧
    (∀ (env : Env) (sid : String) (cfg : AgenticTestConfig),
        (∀ n, env n = none) → cfg.success_criteria = [] →
        (agenticExecuteTest env sid cfg).result.success = true ∧
        (agenticExecuteTest env sid cfg).trace =
          [AgEvent.attemptStart 1, AgEvent.actionExec AgenticActionType.analyze_page,
           AgEvent.criteriaCheck true]) := by
  refine ⟨checkSuccessCriteria_success, ?_, ?_⟩
  · intro env sid cfg hne
    obtain ⟨h1, h2⟩ := attemptLoop_exhaust env cfg.success_criteria sid
      ("Agentic Test: " ++ cfg.goal) (resolvedMaxAttempts cfg) hne (resolvedMaxAttempts cfg) 0
      { k := 0, screenshots := [] }
    simp only [agenticExecuteTest]
    exact h1
  · intro env sid cfg hEnv hcrit
    obtain ⟨f, hf⟩ := resolvedMaxAttempts_pos cfg
    simp only [agenticExecuteTest, hf, hcrit]
    simp [attemptLoop, runAttempt, runPlan, planActions, takeSnapshot, executeAgenticAction,
      pwCall, hEnv, checkSuccessCriteria]

theorem C9_criteria_check_degenerate_witness :
    (["c"] : List String) ≠ [] ∧
    (agenticExecuteTest (fun _ => none) "s"
        { goal := "g", context := "c", success_criteria := ["c"] }).result.success = false ∧
    (agenticExecuteTest (fun _ => none) "s"
        { goal := "g", context := "c", success_criteria := [] }).result.success = true :=
  ⟨by decide,
    C9_criteria_check_degenerate.2.1 (fun _ => none) "s"
      { goal := "g", context := "c", success_criteria := ["c"] } (by decide),
    (C9_criteria_check_degenerate.2.2 (fun _ => none) "s"
      { goal := "g", context := "c", success_criteria := [] } (fun _ => rfl) rfl).1⟩

/-- C10: the agentic defaults apply to falsy values, not only missing
ones - `max_attempts = 0` resolves to 3 (and such a run with never-met
criteria indeed performs 3 attempts) and `timeout_ms = 0` resolves to
300000. -/
theorem C10_falsy_defaults (env : Env) (sid goal ctx : String) (criteria : List String)
    (tm ma : Option Nat) (h : criteria ≠ []) :
    resolvedMaxAttempts
      { goal := goal, context := ctx, success_criteria := criteria,
        max_attempts := some 0, timeout_ms := tm } = 3 ∧
    resolvedTimeoutMs
      { goal := goal, context := ctx, success_criteria := criteria,
        max_attempts := ma, timeout_ms := some 0 } = 300000 ∧
    ((agenticExecuteTest env sid
        { goal := goal, context := ctx, success_criteria := criteria,
          max_attempts := some 0, timeout_ms := tm }).trace.filter isAttemptStartB =
      [AgEvent.attemptStart 1, AgEvent.attemptStart 2, AgEvent.attemptStart 3]) := by
  refine ⟨rfl, rfl, ?_⟩
  obtain ⟨h1, h2⟩ := attemptLoop_exhaust env criteria sid ("Agentic Test: " ++ goal) 3 h 3 0
    { k := 0, screenshots := [] }
  have hmA : resolvedMaxAttempts
      { goal := goal, context := ctx, success_criteria := criteria,
        max_attempts := some 0, timeout_ms := tm } = 3 := rfl
  simp only [agenticExecuteTest, hmA]
  rw [h2]
  decide

theorem C10_falsy_defaults_witness :
    (["never"] : List String) ≠ [] ∧
    resolvedMaxAttempts
      { goal := "g", context := "c", success_criteria := ["never"],
        max_attempts := some 0, timeout_ms := none } = 3 ∧
    resolvedTimeoutMs
      { goal := "g", context := "c", success_criteria := ["never"],
        max_attempts := none, timeout_ms := some 0 } = 300000 :=
  ⟨by decide,
    (C10_falsy_defaults (fun _ => none) "s" "g" "c" ["never"] none none (by decide)).1,
    (C10_falsy_defaults (fun _ => none) "s" "g" "c" ["never"] none none (by decide)).2.1⟩

/-! Trace-shape lemmas for the evaluation-after-every-action property. -/

/-- The scan state machine is compositional over concatenation. -/
theorem cfaRun_append :
    ∀ (xs : List AgEvent) (p : Bool) (ys : List AgEvent),
      cfaRun p (xs ++ ys) = (cfaRun p xs).bind (fun q => cfaRun q ys) := by
  intro xs
  induction xs with
  | nil => intro p ys; simp [cfaRun]
  | cons e rest ih =>
    intro p ys
    cases e with
    | attemptStart n =>
      cases p with
      | false => simp [cfaRun, ih]
      | true => simp [cfaRun]
    | actionExec t =>
      cases p with
      | false => simp [cfaRun, ih]
      | true => simp [cfaRun]
    | criteriaCheck b => simp [cfaRun, ih]
    | attemptError m => simp [cfaRun, ih]

/-- Scanning the plan-loop events never fails, and ends with no pending
action whenever the plan loop returned normally (an abnormal ending can
only leave a pending action whose evaluation failed, and the enclosing
catch follows immediately). -/
theorem runPlan_cfa (env : Env) (criteria : List String) :
    ∀ (plan : List AgenticAction) (st : StepState),
      ∃ q, cfaRun false (runPlan env criteria st plan).1 = some q ∧
        (∀ b, (runPlan env criteria st plan).2.2 = Except.ok b → q = false) := by
  intro plan
  induction plan with
  | nil =>
    intro st
    exact ⟨false, by simp [runPlan, cfaRun], fun b _ => rfl⟩
  | cons a rest ih =>
    intro st
    simp only [runPlan]
    cases hE : (executeAgenticAction env st a).2 with
    | error e =>
      dsimp only
      exact ⟨false, by simp [cfaRun], fun b hb => by simp at hb⟩
    | ok u =>
      dsimp only
      cases hS : (takeSnapshot env (executeAgenticAction env st a).1).2 with
      | error e2 =>
        dsimp only
        refine ⟨true, by simp [cfaRun], ?_⟩
        intro b hb
        simp at hb
      | ok v =>
        dsimp only
        cases hc : (checkSuccessCriteria criteria).success with
        | true =>
          rw [if_pos rfl]
          refine ⟨false, by simp [cfaRun], fun b _ => rfl⟩
        | false =>
          rw [if_neg Bool.false_ne_true]
          obtain ⟨q, hq1, hq2⟩ := ih (takeSnapshot env (executeAgenticAction env st a).1).1
          refine ⟨q, ?_, hq2⟩
          simp [cfaRun, hq1]

/-- Same scan property for a whole attempt body. -/
theorem runAttempt_cfa (env : Env) (criteria : List String) (st : StepState) :
    ∃ q, cfaRun false (runAttempt env criteria st).1 = some q ∧
      (∀ b, (runAttempt env criteria st).2.2 = Except.ok b → q = false) := by
  simp only [runAttempt]
  cases hS : (takeSnapshot env st).2 with
  | error e =>
    dsimp only
    exact ⟨false, by simp [cfaRun], fun b hb => by simp at hb⟩
  | ok v =>
    dsimp only
    exact runPlan_cfa env criteria planActions _

/-- Scanning a full attempt-loop trace succeeds with no pending
action: after every completed plan action the evaluation outcome (a
criteria check, or the attempt-aborting error of its snapshot) follows
before any further action or attempt. -/
theorem attemptLoop_cfa (env : Env) (criteria : List String) (sid gn : String) (mA : Nat) :
    ∀ (fuel attempts : Nat) (st : StepState),
      cfaRun false (attemptLoop env criteria sid gn mA fuel attempts st).1 = some false := by
  intro fuel
  induction fuel with
  | zero => intro attempts st; simp [attemptLoop, cfaRun]
  | succ f ih =>
    intro attempts st
    simp only [attemptLoop]
    cases hR : (runAttempt env criteria st).2.2 with
    | ok b =>
      obtain ⟨q, hq1, hq2⟩ := runAttempt_cfa env criteria st
      have hq0 : q = false := hq2 b hR
      subst hq0
      cases b with
      | true =>
        dsimp only
        simpa [cfaRun] using hq1
      | false =>
        dsimp only
        rw [show (AgEvent.attemptStart (attempts + 1) ::
            (runAttempt env criteria st).1 ++
            (attemptLoop env criteria sid gn mA f (attempts + 1)
              (runAttempt env criteria st).2.1).1) =
          (AgEvent.attemptStart (attempts + 1) :: (runAttempt env criteria st).1) ++
            (attemptLoop env criteria sid gn mA f (attempts + 1)
              (runAttempt env criteria st).2.1).1 from by simp]
        rw [cfaRun_append]
        have hstart : cfaRun false
            (AgEvent.attemptStart (attempts + 1) :: (runAttempt env criteria st).1) =
            some false := by
          simpa [cfaRun] using hq1
        rw [hstart]
        simpa using ih (attempts + 1) (runAttempt env criteria st).2.1
    | error e =>
      obtain ⟨q, hq1, hq2⟩ := runAttempt_cfa env criteria st
      dsimp only
      rw [show (AgEvent.attemptStart (attempts + 1) ::
          (runAttempt env criteria st).1 ++
          AgEvent.attemptError e ::
            (attemptLoop env criteria sid gn mA f (attempts + 1)
              (runAttempt env criteria st).2.1).1) =
        (AgEvent.attemptStart (attempts + 1) :: (runAttempt env criteria st).1) ++
          (AgEvent.attemptError e ::
            (attemptLoop env criteria sid gn mA f (attempts + 1)
              (runAttempt env criteria st).2.1).1) from by simp]
      rw [cfaRun_append]
      have hstart : cfaRun false
          (AgEvent.attemptStart (attempts + 1) :: (runAttempt env criteria st).1) =
          some q := by
        simpa [cfaRun] using hq1
      rw [hstart]
      simpa [cfaRun] using ih (attempts + 1) (runAttempt env criteria st).2.1

/-- A trace free of successful checks is trivially clean after
success. -/
theorem asc_of_noSucc : ∀ tr : List AgEvent, noSuccEv tr = true → afterSuccessClean tr = true := by
  intro tr
  induction tr with
  | nil => intro _; rfl
  | cons e rest ih =>
    intro h
    simp only [noSuccEv, List.all_cons, Bool.and_eq_true] at h
    simp only [afterSuccessClean]
    rw [if_neg (by simp [Bool.not_eq_true'] at h; simp [h.1])]
    exact ih (by simpa [noSuccEv] using h.2)

/-- Scanning past a success-free prefix reduces cleanliness to the
suffix. -/
theorem asc_append_noSucc :
    ∀ (xs ys : List AgEvent), noSuccEv xs = true →
      afterSuccessClean (xs ++ ys) = afterSuccessClean ys := by
  intro xs
  induction xs with
  | nil => intro ys _; rfl
  | cons e rest ih =>
    intro ys h
    simp only [noSuccEv, List.all_cons, Bool.and_eq_true] at h
    simp only [List.cons_append, afterSuccessClean]
    rw [if_neg (by simp [Bool.not_eq_true'] at h; simp [h.1])]
    exact ih ys (by simpa [noSuccEv] using h.2)

/-- A plan loop that did not report success emits no successful check
event. -/
theorem runPlan_noSucc (env : Env) (criteria : List String) :
    ∀ (plan : List AgenticAction) (st : StepState),
      (runPlan env criteria st plan).2.2 ≠ Except.ok true →
      noSuccEv (runPlan env criteria st plan).1 = true := by
  intro plan
  induction plan with
  | nil => intro st _; rfl
  | cons a rest ih =>
    intro st hne
    simp only [runPlan] at hne ⊢
    cases hE : (executeAgenticAction env st a).2 with
    | error e => simp [noSuccEv]
    | ok u =>
      rw [hE] at hne
      dsimp only at hne ⊢
      cases hS : (takeSnapshot env (executeAgenticAction env st a).1).2 with
      | error e2 => simp [noSuccEv, isSuccessCheck]
      | ok v =>
        rw [hS] at hne
        dsimp only at hne ⊢
        cases hc : (checkSuccessCriteria criteria).success with
        | true =>
          rw [hc] at hne
          rw [if_pos rfl] at hne
          exact absurd rfl hne
        | false =>
          rw [hc] at hne
          rw [if_neg Bool.false_ne_true] at hne ⊢
          have := ih (takeSnapshot env (executeAgenticAction env st a).1).1 hne
          simpa [noSuccEv, isSuccessCheck] using this

/-- A plan loop that reported success ends its events with the very
action that met the goal followed by the successful check, with no
successful check earlier. -/
theorem runPlan_succ_shape (env : Env) (criteria : List String) :
    ∀ (plan : List AgenticAction) (st : StepState),
      (runPlan env criteria st plan).2.2 = Except.ok true →
      ∃ evs0 t, (runPlan env criteria st plan).1 =
          evs0 ++ [AgEvent.actionExec t, AgEvent.criteriaCheck true] ∧
        noSuccEv evs0 = true := by
  intro plan
  induction plan with
  | nil => intro st h; simp [runPlan] at h
  | cons a rest ih =>
    intro st h
    simp only [runPlan] at h ⊢
    cases hE : (executeAgenticAction env st a).2 with
    | error e =>
      rw [hE] at h
      dsimp only at h
      exact absurd h (by simp)
    | ok u =>
      rw [hE] at h
      dsimp only at h ⊢
      cases hS : (takeSnapshot env (executeAgenticAction env st a).1).2 with
      | error e2 =>
        rw [hS] at h
        dsimp only at h
        exact absurd h (by simp)
      | ok v =>
        rw [hS] at h
        dsimp only at h ⊢
        cases hc : (checkSuccessCriteria criteria).success with
        | true =>
          rw [hc] at h
          rw [if_pos rfl] at h ⊢
          exact ⟨[], a.type, rfl, rfl⟩
        | false =>
          rw [hc] at h
          rw [if_neg Bool.false_ne_true] at h ⊢
          obtain ⟨evs0, t, heq, hns⟩ :=
            ih (takeSnapshot env (executeAgenticAction env st a).1).1 h
          refine ⟨AgEvent.actionExec a.type :: AgEvent.criteriaCheck false :: evs0, t, ?_, ?_⟩
          · rw [heq]
            rfl
          · simpa [noSuccEv, isSuccessCheck] using hns

/-- Attempt-body variant of `runPlan_noSucc`. -/
theorem runAttempt_noSucc (env : Env) (criteria : List String) (st : StepState)
    (hne : (runAttempt env criteria st).2.2 ≠ Except.ok true) :
    noSuccEv (runAttempt env criteria st).1 = true := by
  simp only [runAttempt] at hne ⊢
  cases hS : (takeSnapshot env st).2 with
  | error e => rfl
  | ok v =>
    rw [hS] at hne
    dsimp only at hne ⊢
    exact runPlan_noSucc env criteria planActions _ hne

/-- Attempt-body variant of `runPlan_succ_shape`. -/
theorem runAttempt_succ_shape (env : Env) (criteria : List String) (st : StepState)
    (h : (runAttempt env criteria st).2.2 = Except.ok true) :
    ∃ evs0 t, (runAttempt env criteria st).1 =
        evs0 ++ [AgEvent.actionExec t, AgEvent.criteriaCheck true] ∧
      noSuccEv evs0 = true := by
  simp only [runAttempt] at h ⊢
  cases hS : (takeSnapshot env st).2 with
  | error e =>
    rw [hS] at h
    dsimp only at h
    exact absurd h (by simp)
  | ok v =>
    rw [hS] at h
    dsimp only at h ⊢
    exact runPlan_succ_shape env criteria planActions _ h

/-- Once an evaluation reports success the whole remaining trace is
empty of plan actions and attempt starts. -/
theorem attemptLoop_asc (env : Env) (criteria : List String) (sid gn : String) (mA : Nat) :
    ∀ (fuel attempts : Nat) (st : StepState),
      afterSuccessClean (attemptLoop env criteria sid gn mA fuel attempts st).1 = true := by
  intro fuel
  induction fuel with
  | zero => intro attempts st; rfl
  | succ f ih =>
    intro attempts st
    simp only [attemptLoop]
    cases hR : (runAttempt env criteria st).2.2 with
    | ok b =>
      cases b with
      | true =>
        dsimp only
        obtain ⟨evs0, t, heq, hns⟩ := runAttempt_succ_shape env criteria st hR
        rw [heq]
        simp only [afterSuccessClean, isSuccessCheck]
        rw [if_neg (by simp)]
        rw [show evs0 ++ [AgEvent.actionExec t, AgEvent.criteriaCheck true] =
          evs0 ++ [AgEvent.actionExec t, AgEvent.criteriaCheck true] from rfl]
        rw [asc_append_noSucc evs0 [AgEvent.actionExec t, AgEvent.criteriaCheck true] hns]
        rfl
      | false =>
        dsimp only
        have hns := runAttempt_noSucc env criteria st (by rw [hR]; simp)
        simp only [afterSuccessClean, isSuccessCheck]
        rw [if_neg (by simp)]
        rw [List.append_eq]
        rw [asc_append_noSucc (runAttempt env criteria st).1 _ hns]
        exact ih (attempts + 1) (runAttempt env criteria st).2.1
    | error e =>
      dsimp only
      have hns := runAttempt_noSucc env criteria st (by rw [hR]; simp)
      simp only [afterSuccessClean, isSuccessCheck]
      rw [if_neg (by simp)]
      rw [List.append_eq]
      rw [asc_append_noSucc (runAttempt env criteria st).1 _ hns]
      simp only [afterSuccessClean, isSuccessCheck]
      rw [if_neg (by simp)]
      exact ih (attempts + 1) (runAttempt env criteria st).2.1

/-- Automation oracle whose third call - the snapshot taken in order to
re-evaluate the criteria after the first executed plan action - fails. -/
def envC6 : Env := fun k => if k == 2 then some ("snapshot failed") else none

/-- A one-attempt goal descriptor with a nonempty criteria list. -/
def cfgC6 : AgenticTestConfig :=
  { goal := "reach goal", context := "ctx", success_criteria := ["criterion"],
    max_attempts := some 1, timeout_ms := none }

/-- C6 counterexample: a run in which the first plan action executes to
completion but the snapshot taken for the following re-evaluation
fails. The trace holds one executed action and zero criteria checks, so
the criteria are not re-evaluated after every executed plan action as
the claim states - the attempt aborts before the evaluation completes. -/
theorem C6_counterexample :
    (agenticExecuteTest envC6 "s1" cfgC6).trace =
      [AgEvent.attemptStart 1, AgEvent.actionExec AgenticActionType.analyze_page,
       AgEvent.attemptError ("snapshot failed")] ∧
    ((agenticExecuteTest envC6 "s1" cfgC6).trace.filter isActionExecB).length = 1 ∧
    ((agenticExecuteTest envC6 "s1" cfgC6).trace.filter isCriteriaCheckB).length = 0 := by
  decide

/-- C6 (amended): in every agentic run, immediately after each
completed plan action the evaluation step follows before any further
action or attempt - recorded as a criteria check, except that a failure
of the evaluation's own snapshot aborts the attempt instead - and once
an evaluation reports success no further plan action executes and no
further attempt starts. -/
theorem C6_check_after_each_action (env : Env) (sid : String) (cfg : AgenticTestConfig) :
    cfaRun false (agenticExecuteTest env sid cfg).trace = some false ∧
    afterSuccessClean (agenticExecuteTest env sid cfg).trace = true := by
  constructor
  · simp only [agenticExecuteTest]
    exact attemptLoop_cfa env cfg.success_criteria sid ("Agentic Test: " ++ cfg.goal)
      (resolvedMaxAttempts cfg) (resolvedMaxAttempts cfg) 0 { k := 0, screenshots := [] }
  · simp only [agenticExecuteTest]
    exact attemptLoop_asc env cfg.success_criteria sid ("Agentic Test: " ++ cfg.goal)
      (resolvedMaxAttempts cfg) (resolvedMaxAttempts cfg) 0 { k := 0, screenshots := [] }
